import Mathlib

/-!
Shallow embedding of `src/BeanLog/BeanLog.hpp` (the BeanLog logging library).

The source is a single C++ header exposing a singleton `BeanLog` class with
  * an enum `BeanLogLevel { trace, info, warn, fail }` (ordinals 0..3),
  * `SetLogLevel(lvl)` writing the `_logLevel` field,
  * `LogA(lvl, fmt, args...)` / `LogW(...)` (identical logic, differing only in
    the character width of the formatted text, which we abstract away): guarded
    by `lvl >= _logLevel && lvl >= 0 && lvl <= fail`, it sets the console text
    attribute to `_colors[lvl]`, prints one `[APP]` line, then reads
    `GetLastError()` into `_tmpError` and, when that value is non-zero and
    different from `_lastError`, prints one `[SYS]` line and records the code
    in `_lastError`,
  * a constructor that unconditionally calls `AllocConsole()`, then
    `freopen_s` of stdout onto `CONOUT$`, then `GetStdHandle`, popping a modal
    dialog and returning early on each failure, and
  * a destructor that closes stdout only when `_isStdoutOpen` and frees the
    console only when `_isConsoleAllocated`.

Machine integers: `_logLevel` is a C++ `int` (modelled as `Int`; all the code
does is compare it), `_lastError`/`_tmpError` are `DWORD`s (modelled as `Nat`;
the code only compares them for equality and against zero, so no wrap-around
arithmetic occurs). The console side effects (attribute changes, line writes)
are modelled as an explicit event trace.
-/

namespace BeanLog

/-! ## Color table (`wincon.h` attribute constants and the `_colors` array) -/

def FOREGROUND_BLUE : Nat := 1

def FOREGROUND_GREEN : Nat := 2

def FOREGROUND_RED : Nat := 4

def FOREGROUND_INTENSITY : Nat := 8

/-- The `int _colors[4]` table of `BeanLog`: dim white, bright green,
bright yellow, bright red — one entry per `BeanLogLevel` ordinal. -/
def colors : List Nat :=
  [FOREGROUND_RED ||| FOREGROUND_GREEN ||| FOREGROUND_BLUE,
   FOREGROUND_GREEN ||| FOREGROUND_INTENSITY,
   FOREGROUND_GREEN ||| FOREGROUND_RED ||| FOREGROUND_INTENSITY,
   FOREGROUND_RED ||| FOREGROUND_INTENSITY]

/-- `_colors[lvl]` as evaluated in the guarded branch of `LogA`/`LogW`
(the guard ensures `0 <= lvl <= fail`, so the lookup is in bounds; the
`getD 0` default is never reached there). -/
def colorOf (lvl : Int) : Nat := (colors.get? lvl.toNat).getD 0

/-! ## BeanLogLevel ordinals -/

def trace : Int := 0

def info : Int := 1

def warn : Int := 2

def fail : Int := 3

/-! ## Logger state and the observable output trace -/

/-- The mutable fields of the `BeanLog` singleton used by `SetLogLevel` and
`LogA`/`LogW`: `int _logLevel`, `DWORD _lastError`, `DWORD _tmpError`. -/
structure LoggerState where
  logLevel : Int
  lastError : Nat
  tmpError : Nat
  deriving DecidableEq, Repr

/-- Field initializers of `BeanLog`: `_logLevel = trace`, `_lastError = 0`,
`_tmpError = 0`. -/
def initLogger : LoggerState := { logLevel := 0, lastError := 0, tmpError := 0 }

/-- The logger state together with the operating system's thread-local
last-error value, as returned by `GetLastError()`. The source never calls
`SetLastError`, so only the environment (failing system calls) writes it. -/
structure World where
  logger : LoggerState
  osError : Nat
  deriving DecidableEq, Repr

/-- One observable console action of a logging call: a
`SetConsoleTextAttribute` call, one formatted `[APP]` output line (at the
given level), or one `[SYS]` output line (for the given error code).
Timestamps and the formatted message text are abstracted away: the claims
under study are about which lines appear, with which color and error code. -/
inductive Event where
  | setColor (attr : Nat)
  | appLine (lvl : Int)
  | sysLine (code : Nat)
  deriving DecidableEq, Repr

/-- `BeanLog::SetLogLevel`: `_logLevel = lvl`. -/
def SetLogLevel (st : LoggerState) (lvl : Int) : LoggerState :=
  { st with logLevel := lvl }

/-- `BeanLog::LogA` (and the identically structured `LogW`): if
`lvl >= _logLevel && lvl >= 0 && lvl <= fail`, set the text attribute to
`_colors[lvl]`, print the `[APP]` line, assign `_tmpError = GetLastError()`,
and if `_tmpError != 0 && _tmpError != _lastError`, print the `[SYS]` line
(`_PrintSystemError`) and set `_lastError = _tmpError`; otherwise do
nothing at all. -/
def LogA (w : World) (lvl : Int) : World × List Event :=
  if w.logger.logLevel ≤ lvl ∧ 0 ≤ lvl ∧ lvl ≤ fail then
    let attr := colorOf lvl
    let tmp := w.osError
    if tmp ≠ 0 ∧ tmp ≠ w.logger.lastError then
      ({ w with logger := { w.logger with tmpError := tmp, lastError := tmp } },
       [Event.setColor attr, Event.appLine lvl, Event.sysLine tmp])
    else
      ({ w with logger := { w.logger with tmpError := tmp } },
       [Event.setColor attr, Event.appLine lvl])
  else
    (w, [])

/-! ## Runs: sequences of logging calls interleaved with environment actions -/

/-- One step of a host application run: a failing system call setting the OS
last-error value, a `LogA` call, or a `SetLogLevel` call. -/
inductive Step where
  | sysCallSetsError (code : Nat)
  | log (lvl : Int)
  | setLevel (lvl : Int)
  deriving DecidableEq, Repr

def runStep (w : World) : Step → World × List Event
  | Step.sysCallSetsError c => ({ w with osError := c }, [])
  | Step.log lvl => LogA w lvl
  | Step.setLevel lvl => ({ w with logger := SetLogLevel w.logger lvl }, [])

/-- Execute a sequence of steps, accumulating the output trace. -/
def run (w : World) : List Step → World × List Event
  | [] => (w, [])
  | s :: rest =>
    ((run (runStep w s).1 rest).1, (runStep w s).2 ++ (run (runStep w s).1 rest).2)

/-- The error codes of the `[SYS]` lines of a trace, in order. -/
def sysCodes (evs : List Event) : List Nat :=
  evs.filterMap fun e =>
    match e with
    | Event.sysLine c => some c
    | _ => none

/-- Whether a trace contains an `[APP]` line. -/
def hasAppLine (evs : List Event) : Bool :=
  evs.any fun e =>
    match e with
    | Event.appLine _ => true
    | _ => false

/-! ## Construction (`BeanLog::BeanLog`) and destruction (`BeanLog::~BeanLog`)

The constructor interacts with the Win32 console subsystem; we model the
relevant environment facts as booleans. Per the Win32 contract,
`AllocConsole` fails when the calling process already has a console attached,
so its success is `!consoleAttached && allocWorks`. -/

/-- Environment facts the constructor's system calls depend on:
whether a console is already attached to the process, whether a fresh
allocation would succeed (absent an attached console), whether
`freopen_s` onto `CONOUT$` succeeds, and whether `GetStdHandle` returns a
valid handle. -/
structure ConsoleEnv where
  consoleAttached : Bool
  allocWorks : Bool
  freopenWorks : Bool
  stdHandleValid : Bool
  deriving DecidableEq, Repr

/-- Observable actions of the constructor: the `AllocConsole` call, the
`freopen_s` of stdout, the `GetStdHandle` call, and the modal
`MessageBoxW` dialogs (numbered 0 = failed to allocate, 1 = failed to
reopen stdout, 2 = failed to get the output handle). -/
inductive CtorAction where
  | allocConsole
  | reopenStdout
  | getStdHandle
  | errorDialog (which : Nat)
  deriving DecidableEq, Repr

/-- The resource-ownership fields established by the constructor
(`_isConsoleAllocated`, `_isStdoutOpen`, validity of `_outHandle`)
together with the sequence of actions it performed. -/
structure CtorResult where
  isConsoleAllocated : Bool
  isStdoutOpen : Bool
  outHandleValid : Bool
  actions : List CtorAction
  deriving DecidableEq, Repr

/-- `BeanLog::BeanLog`: `_isConsoleAllocated = AllocConsole()`; on failure
show dialog 0 and return; then `freopen_s(&_fConOut, "CONOUT$", "w", stdout)`;
on failure show dialog 1 and return, else `_isStdoutOpen = true`; then
`_outHandle = GetStdHandle(STD_OUTPUT_HANDLE)`; if invalid show dialog 2. -/
def BeanLogCtor (env : ConsoleEnv) : CtorResult :=
  let allocOk := !env.consoleAttached && env.allocWorks
  if !allocOk then
    { isConsoleAllocated := false, isStdoutOpen := false, outHandleValid := false,
      actions := [CtorAction.allocConsole, CtorAction.errorDialog 0] }
  else if !env.freopenWorks then
    { isConsoleAllocated := true, isStdoutOpen := false, outHandleValid := false,
      actions := [CtorAction.allocConsole, CtorAction.reopenStdout,
                  CtorAction.errorDialog 1] }
  else if !env.stdHandleValid then
    { isConsoleAllocated := true, isStdoutOpen := true, outHandleValid := false,
      actions := [CtorAction.allocConsole, CtorAction.reopenStdout,
                  CtorAction.getStdHandle, CtorAction.errorDialog 2] }
  else
    { isConsoleAllocated := true, isStdoutOpen := true, outHandleValid := true,
      actions := [CtorAction.allocConsole, CtorAction.reopenStdout,
                  CtorAction.getStdHandle] }

/-- Observable actions of the destructor: the `fclose` of the redirected
stdout stream, the `FreeConsole` call, and the modal dialogs
(0 = failed to close stdout, 1 = failed to free the console). -/
inductive DtorAction where
  | closeStdout
  | freeConsole
  | errorDialog (which : Nat)
  deriving DecidableEq, Repr

/-- `BeanLog::~BeanLog`: `if (_isStdoutOpen)` close `_fConOut` (dialog 0 when
`fclose` returns `EOF`); then `if (_isConsoleAllocated)` call `FreeConsole`
(dialog 1 when it fails). -/
def BeanLogDtor (st : CtorResult) (fcloseOk freeOk : Bool) : List DtorAction :=
  (if st.isStdoutOpen then
     DtorAction.closeStdout :: (if !fcloseOk then [DtorAction.errorDialog 0] else [])
   else []) ++
  (if st.isConsoleAllocated then
     DtorAction.freeConsole :: (if !freeOk then [DtorAction.errorDialog 1] else [])
   else [])

/-! ## Micro-step schedules for the concurrency claim

To state atomicity of a `LogA` call with respect to another concurrent call
we view each observable action of a call as one atomic micro-step and extend
the alphabet with critical-section brackets. The source contains no mutex or
critical section, so the step list of a call — `LogMicroSteps` below —
consists of its console events only, never a lock acquire or release. -/

/-- A micro-step of a thread: enter/leave an exclusive critical section, or
perform one console action. -/
inductive MicroAction where
  | lockAcquire
  | lockRelease
  | emit (e : Event)
  deriving DecidableEq, Repr

/-- The atomic micro-steps one `LogA` call performs, in order. As the source
takes no lock, these are exactly the call's console actions. -/
def LogMicroSteps (w : World) (lvl : Int) : List MicroAction :=
  ((LogA w lvl).2).map MicroAction.emit

/-- `isMergeOf sched xs ys` holds when `sched` is an interleaving of thread
`false`'s steps `xs` and thread `true`'s steps `ys`, each in program order. -/
def isMergeOf : List (Bool × MicroAction) → List MicroAction → List MicroAction → Bool
  | [], xs, ys => xs.isEmpty && ys.isEmpty
  | (false, a) :: s, x :: xs, ys => decide (a = x) && isMergeOf s xs ys
  | (false, _) :: _, [], _ => false
  | (true, a) :: s, xs, y :: ys => decide (a = y) && isMergeOf s xs ys
  | (true, _) :: _, _, [] => false

def respectsLockAux : Option Bool → List (Bool × MicroAction) → Bool
  | _, [] => true
  | none, (t, MicroAction.lockAcquire) :: s => respectsLockAux (some t) s
  | none, (_, _) :: s => respectsLockAux none s
  | some _, (_, MicroAction.lockAcquire) :: _ => false
  | some h, (t, MicroAction.lockRelease) :: s => decide (h = t) && respectsLockAux none s
  | some h, (t, _) :: s => decide (h = t) && respectsLockAux (some h) s

/-- A schedule respects mutual exclusion when, while one thread holds the
lock, only that thread takes steps. Schedules with no lock actions are
unconstrained. -/
def respectsLock (sched : List (Bool × MicroAction)) : Bool :=
  respectsLockAux none sched

def tagList (t : Bool) (l : List MicroAction) : List (Bool × MicroAction) :=
  l.map fun a => (t, a)

/-- A schedule of two threads is serial when one thread's steps form a
contiguous block before the other's: the two calls do not interleave. -/
def isSerial (sched : List (Bool × MicroAction)) (xs ys : List MicroAction) : Bool :=
  decide (sched = tagList false xs ++ tagList true ys) ||
  decide (sched = tagList true ys ++ tagList false xs)

/-- A concrete interleaved schedule of two `LogA` calls from the initial
state at level `trace` with no pending OS error: the two calls' micro-steps
alternate rather than running back to back. -/
def schedInterleaved : List (Bool × MicroAction) :=
  [(false, MicroAction.emit (Event.setColor 7)),
   (true, MicroAction.emit (Event.setColor 7)),
   (false, MicroAction.emit (Event.appLine 0)),
   (true, MicroAction.emit (Event.appLine 0))]

/-! ## Theorems about the claims -/

/-- Claim C1: for every threshold `L` set via `SetLogLevel` and every valid
severity level (`trace`..`fail`), a `LogA` call at that level produces an
application output line iff `L ≤ level`; a call strictly below `L` produces
no visible output at all. -/
theorem c1_threshold_filtering (L lvl : Int) (w : World)
    (_hL0 : 0 ≤ L) (_hL3 : L ≤ fail) (h0 : 0 ≤ lvl) (h3 : lvl ≤ fail) :
    (hasAppLine (LogA { w with logger := SetLogLevel w.logger L } lvl).2 = true ↔
      L ≤ lvl) ∧
    (lvl < L → (LogA { w with logger := SetLogLevel w.logger L } lvl).2 = []) := by
  simp only [LogA, SetLogLevel, fail] at *
  split_ifs with h1 h2 <;> simp_all [hasAppLine]

/-- Witness for C1 at `L = warn`, `lvl = fail`, initial state. -/
theorem c1_threshold_filtering_witness :
    (hasAppLine
        (LogA { (⟨initLogger, 0⟩ : World) with
                  logger := SetLogLevel initLogger warn } fail).2 = true ↔
      warn ≤ fail) ∧
    (fail < warn →
      (LogA { (⟨initLogger, 0⟩ : World) with
                logger := SetLogLevel initLogger warn } fail).2 = []) :=
  c1_threshold_filtering warn fail ⟨initLogger, 0⟩ (by decide) (by decide)
    (by decide) (by decide)

/-- Claim C2 counterexample: with threshold `warn` and a pending OS error
code 5, a filtered `LogA trace` call leaves the world — including the
captured OS error — completely unchanged, and the very next displayed call
then reports that stale code 5 as a `[SYS]` line. The pending error is not
cleared by the filtered call, contradicting the claim. -/
theorem c2_counterexample :
    LogA ⟨⟨warn, 0, 0⟩, 5⟩ trace = (⟨⟨warn, 0, 0⟩, 5⟩, []) ∧
    Event.sysLine 5 ∈ (LogA (LogA ⟨⟨warn, 0, 0⟩, 5⟩ trace).1 fail).2 := by decide

/-- Claim C2 amended: `LogA` never clears the operating-system last-error
value (the source never calls `SetLastError`); a call that produces no
output is a complete no-op on logger state and OS error alike. An error
pending at a filtered call therefore survives and can be reported against a
later unrelated displayed call; re-display is prevented only by the
`_lastError` deduplication field. -/
theorem c2_error_not_consumed (w : World) (lvl : Int) :
    (LogA w lvl).1.osError = w.osError ∧
    ((LogA w lvl).2 = [] → LogA w lvl = (w, [])) := by
  simp only [LogA]
  split_ifs <;> simp_all

/-- Witness for C2 amended: a filtered call at level `trace` under threshold
`warn` with pending error 5 is exactly the identity on the world. -/
theorem c2_error_not_consumed_witness :
    LogA ⟨⟨warn, 0, 0⟩, 5⟩ trace = (⟨⟨warn, 0, 0⟩, 5⟩, []) :=
  (c2_error_not_consumed ⟨⟨warn, 0, 0⟩, 5⟩ trace).2 (by decide)

/-- Claim C4 counterexample: in an environment where a console output handle
is already attached, the constructor still performs the `AllocConsole` call,
acquires no usable output handle, and pops the "Failed to allocate a
console" error dialog — it neither detects the attached console nor uses it
directly, contradicting the claim. -/
theorem c4_counterexample :
    CtorAction.allocConsole ∈ (BeanLogCtor ⟨true, true, true, true⟩).actions ∧
    (BeanLogCtor ⟨true, true, true, true⟩).outHandleValid = false ∧
    CtorAction.errorDialog 0 ∈ (BeanLogCtor ⟨true, true, true, true⟩).actions := by
  decide

/-- Claim C4 amended: the constructor performs no detection of an existing
console; its first action is always the unconditional `AllocConsole` call.
When a console is already attached that call fails, so the constructor shows
the allocation-failure dialog, does not reopen standard output, acquires no
output handle, and leaves both ownership flags false. -/
theorem c4_no_console_detection (att aw fw sv : Bool) :
    (BeanLogCtor ⟨att, aw, fw, sv⟩).actions.head? = some CtorAction.allocConsole ∧
    (att = true →
      BeanLogCtor ⟨att, aw, fw, sv⟩ =
        { isConsoleAllocated := false, isStdoutOpen := false,
          outHandleValid := false,
          actions := [CtorAction.allocConsole, CtorAction.errorDialog 0] }) := by
  cases att <;> cases aw <;> cases fw <;> cases sv <;> simp [BeanLogCtor]

/-- Witness for C4 amended at the all-true environment. -/
theorem c4_no_console_detection_witness :
    BeanLogCtor ⟨true, true, true, true⟩ =
      { isConsoleAllocated := false, isStdoutOpen := false,
        outHandleValid := false,
        actions := [CtorAction.allocConsole, CtorAction.errorDialog 0] } :=
  (c4_no_console_detection true true true true).2 rfl

/-- Claim C5: teardown releases exactly what construction acquired — the
destructor closes the redirected stdout stream iff the constructor set
`_isStdoutOpen`, frees the console iff the constructor set
`_isConsoleAllocated`, and when the console pre-existed (was merely
inherited) it releases nothing at all. -/
theorem c5_teardown_ownership (att aw fw sv fc fr : Bool) :
    ((DtorAction.closeStdout ∈ BeanLogDtor (BeanLogCtor ⟨att, aw, fw, sv⟩) fc fr) ↔
      (BeanLogCtor ⟨att, aw, fw, sv⟩).isStdoutOpen = true) ∧
    ((DtorAction.freeConsole ∈ BeanLogDtor (BeanLogCtor ⟨att, aw, fw, sv⟩) fc fr) ↔
      (BeanLogCtor ⟨att, aw, fw, sv⟩).isConsoleAllocated = true) ∧
    (att = true → BeanLogDtor (BeanLogCtor ⟨att, aw, fw, sv⟩) fc fr = []) := by
  cases att <;> cases aw <;> cases fw <;> cases sv <;> cases fc <;> cases fr <;>
    decide

/-- Witness for C5: with an inherited console the destructor does nothing. -/
theorem c5_teardown_ownership_witness :
    BeanLogDtor (BeanLogCtor ⟨true, true, true, true⟩) true true = [] :=
  (c5_teardown_ownership true true true true true true).2.2 rfl

/-- Claim C7: every displayed application line is emitted under the color the
fixed 4-entry table assigns to its level — the call's trace starts with
`SetConsoleTextAttribute` to `_colors[lvl]` immediately followed by the
`[APP]` line — and the four colors are pairwise distinct, so the line never
carries another level's color. -/
theorem c7_level_colors (w : World) (lvl : Int)
    (h0 : 0 ≤ lvl) (h3 : lvl ≤ fail) (hth : w.logger.logLevel ≤ lvl) :
    ((LogA w lvl).2.head? = some (Event.setColor (colorOf lvl)) ∧
      (LogA w lvl).2.get? 1 = some (Event.appLine lvl)) ∧
    (∀ l2 : Int, 0 ≤ l2 → l2 ≤ fail → l2 ≠ lvl → colorOf l2 ≠ colorOf lvl) := by
  constructor
  · simp only [LogA]
    rw [if_pos ⟨hth, h0, h3⟩]
    split_ifs <;> simp
  · intro l2 h20 h23 hne
    simp only [fail] at h3 h23
    interval_cases lvl <;> interval_cases l2 <;> simp_all <;> decide

/-- Witness for C7 at level `info` from the initial state, compared against
level `trace`. -/
theorem c7_level_colors_witness : colorOf trace ≠ colorOf info :=
  (c7_level_colors ⟨initLogger, 0⟩ info (by decide) (by decide) (by decide)).2
    trace (by decide) (by decide) (by decide)

/-- Claim C8: `SetLogLevel L` stores exactly `L` in `_logLevel`, and the very
next `LogA` call is filtered according to `L`: for valid levels it produces
output iff `L ≤ level`. -/
theorem c8_threshold_roundtrip (st : LoggerState) (L : Int)
    (_hL0 : 0 ≤ L) (_hL3 : L ≤ fail) :
    (SetLogLevel st L).logLevel = L ∧
    ∀ (w : World) (lvl : Int), 0 ≤ lvl → lvl ≤ fail →
      ((LogA { w with logger := SetLogLevel w.logger L } lvl).2 ≠ [] ↔ L ≤ lvl) := by
  refine ⟨rfl, ?_⟩
  intro w lvl h0 h3
  simp only [LogA, SetLogLevel, fail] at *
  split_ifs with h1 h2 <;> simp_all

/-- Witness for C8 at `L = warn`, next call at `fail`. -/
theorem c8_threshold_roundtrip_witness :
    (LogA { (⟨initLogger, 0⟩ : World) with
              logger := SetLogLevel initLogger warn } fail).2 ≠ [] ↔ warn ≤ fail :=
  (c8_threshold_roundtrip initLogger warn (by decide) (by decide)).2
    ⟨initLogger, 0⟩ fail (by decide) (by decide)

/-- In-bounds lookups into the 4-entry color table always succeed. -/
theorem colors_get_isSome (n : Nat) (h : n < 4) : (colors.get? n).isSome = true := by
  interval_cases n <;> decide

/-- Claim C9: a `LogA` call at a level outside `[trace, fail]` (below 0 or
above 3) is a silent no-op regardless of the threshold — it returns the
world unchanged with no output — and whenever the color table is consulted
(i.e. whenever any output is produced) the index is within the table's
bounds. -/
theorem c9_invalid_level_noop (w : World) (lvl : Int) :
    ((lvl < 0 ∨ fail < lvl) → LogA w lvl = (w, [])) ∧
    ((LogA w lvl).2 ≠ [] → (colors.get? lvl.toNat).isSome = true) := by
  constructor
  · intro h
    have hng : ¬(w.logger.logLevel ≤ lvl ∧ 0 ≤ lvl ∧ lvl ≤ fail) := by
      simp only [fail] at h ⊢
      omega
    simp [LogA, hng]
  · intro hne
    by_cases hg : w.logger.logLevel ≤ lvl ∧ 0 ≤ lvl ∧ lvl ≤ fail
    · have h4 : lvl.toNat < 4 := by
        simp only [fail] at hg
        omega
      exact colors_get_isSome lvl.toNat h4
    · exact absurd (by simp [LogA, hg]) hne

/-- Witness for C9: level 7 is a no-op from the initial state even though the
threshold is `trace`; a displayed call at level `info` stays in bounds. -/
theorem c9_invalid_level_noop_witness :
    LogA ⟨initLogger, 0⟩ 7 = (⟨initLogger, 0⟩, []) ∧
    (colors.get? (info).toNat).isSome = true :=
  ⟨(c9_invalid_level_noop ⟨initLogger, 0⟩ 7).1 (by decide),
   (c9_invalid_level_noop ⟨initLogger, 0⟩ info).2 (by decide)⟩

/-- Claim C10: a `[SYS]` line is only ever emitted by a call that also emits
an `[APP]` line: every `LogA` trace is empty, or a color change plus an
`[APP]` line, or a color change plus an `[APP]` line followed by one `[SYS]`
line — so any call containing a system line contains an application line
before it, and a call with no application output has no system output. -/
theorem c10_sys_implies_app (w : World) (lvl : Int) :
    (∀ c : Nat, Event.sysLine c ∈ (LogA w lvl).2 → hasAppLine (LogA w lvl).2 = true) ∧
    ((LogA w lvl).2 = [] ∨
      (LogA w lvl).2 = [Event.setColor (colorOf lvl), Event.appLine lvl] ∨
      (LogA w lvl).2 =
        [Event.setColor (colorOf lvl), Event.appLine lvl,
         Event.sysLine w.osError]) := by
  constructor
  · intro c hc
    simp only [LogA] at hc ⊢
    split_ifs at hc ⊢ <;> simp_all [hasAppLine]
  · simp only [LogA]
    split_ifs <;> simp

/-- Witness for C10 at a displayed call with pending error 5. -/
theorem c10_sys_implies_app_witness :
    hasAppLine (LogA ⟨⟨warn, 0, 0⟩, 5⟩ fail).2 = true :=
  (c10_sys_implies_app ⟨⟨warn, 0, 0⟩, 5⟩ fail).1 5 (by decide)

/-! ### Deduplication of system-error lines across a run (for C3) -/

theorem sysCodes_append (a b : List Event) :
    sysCodes (a ++ b) = sysCodes a ++ sysCodes b :=
  List.filterMap_append a b _

/-- One `LogA` call either prints no `[SYS]` line and leaves `_lastError`
unchanged, or prints exactly one `[SYS]` line carrying the pending OS error,
which differs from `_lastError` and becomes the new `_lastError`. -/
theorem LogA_sys_spec (w : World) (lvl : Int) :
    (sysCodes (LogA w lvl).2 = [] ∧
      (LogA w lvl).1.logger.lastError = w.logger.lastError) ∨
    (sysCodes (LogA w lvl).2 = [w.osError] ∧ w.osError ≠ w.logger.lastError ∧
      (LogA w lvl).1.logger.lastError = w.osError) := by
  simp only [LogA]
  split_ifs with h1 h2
  · right
    exact ⟨by simp [sysCodes], h2.2, rfl⟩
  · left
    exact ⟨by simp [sysCodes], rfl⟩
  · left
    exact ⟨by simp [sysCodes], rfl⟩

/-- Lift of `LogA_sys_spec` to an arbitrary run step: environment steps and
`SetLogLevel` steps print nothing and keep `_lastError`. -/
theorem runStep_sys_spec (w : World) (s : Step) :
    (sysCodes (runStep w s).2 = [] ∧
      (runStep w s).1.logger.lastError = w.logger.lastError) ∨
    (∃ x, sysCodes (runStep w s).2 = [x] ∧ x ≠ w.logger.lastError ∧
      (runStep w s).1.logger.lastError = x) := by
  cases s with
  | sysCallSetsError c =>
    left
    exact ⟨by simp [runStep, sysCodes], rfl⟩
  | setLevel lvl =>
    left
    exact ⟨by simp [runStep, sysCodes], rfl⟩
  | log lvl =>
    rcases LogA_sys_spec w lvl with h | h
    · left
      exact h
    · right
      exact ⟨w.osError, h⟩

/-- Invariant of `run`: the `[SYS]` codes of the produced trace never repeat
consecutively, the final `_lastError` is the last printed code (or the
initial `_lastError` when none was printed), and the first printed code
differs from the initial `_lastError`. -/
theorem run_sys_inv (steps : List Step) :
    ∀ w : World,
      List.Chain' (fun a b => a ≠ b) (sysCodes (run w steps).2) ∧
      (run w steps).1.logger.lastError =
        (sysCodes (run w steps).2).getLastD w.logger.lastError ∧
      (∀ h ∈ (sysCodes (run w steps).2).head?, h ≠ w.logger.lastError) := by
  induction steps with
  | nil =>
    intro w
    simp [run, sysCodes]
  | cons s rest ih =>
    intro w
    obtain ⟨ih1, ih2, ih3⟩ := ih (runStep w s).1
    have hrw : run w (s :: rest) =
        ((run (runStep w s).1 rest).1,
         (runStep w s).2 ++ (run (runStep w s).1 rest).2) := rfl
    rcases runStep_sys_spec w s with ⟨h1, h2⟩ | ⟨x, h1, hne, h2⟩
    · have he : sysCodes (run w (s :: rest)).2 =
          sysCodes (run (runStep w s).1 rest).2 := by
        rw [hrw, sysCodes_append, h1]
        simp
      refine ⟨?_, ?_, ?_⟩
      · rw [he]
        exact ih1
      · rw [he, hrw, ih2, h2]
      · intro h hh
        rw [he] at hh
        have := ih3 h hh
        rwa [h2] at this
    · have he : sysCodes (run w (s :: rest)).2 =
          x :: sysCodes (run (runStep w s).1 rest).2 := by
        rw [hrw, sysCodes_append, h1]
        rfl
      refine ⟨?_, ?_, ?_⟩
      · rw [he]
        refine List.chain'_cons'.2 ⟨?_, ih1⟩
        intro y hy
        have hyx := ih3 y hy
        rw [h2] at hyx
        exact fun hxy => hyx hxy.symm
      · rw [he, hrw, List.getLastD_cons, ih2, h2]
      · intro h hh
        rw [he] at hh
        simp only [List.head?_cons, Option.mem_def, Option.some.injEq] at hh
        rw [hh] at hne
        exact hne

/-- Claim C3: across every run (any interleaving of `SetLogLevel` calls,
failing system calls, and `LogA` calls from any starting state), no two
consecutive `[SYS]` lines carry the same error code; and a displayed call at
whose time a new, different non-zero error code is pending always prints
that code as a `[SYS]` line. -/
theorem c3_sys_dedup (w : World) (steps : List Step) (lvl : Int) :
    List.Chain' (fun a b => a ≠ b) (sysCodes (run w steps).2) ∧
    (w.logger.logLevel ≤ lvl → 0 ≤ lvl → lvl ≤ fail → w.osError ≠ 0 →
      w.osError ≠ w.logger.lastError →
      Event.sysLine w.osError ∈ (LogA w lvl).2) := by
  refine ⟨(run_sys_inv steps w).1, ?_⟩
  intro h1 h2 h3 h4 h5
  simp [LogA, h1, h2, h3, h4, h5]

/-- Witness for C3: a run that logs twice with the same pending error prints
it once, and a displayed call with a fresh error 5 prints it. -/
theorem c3_sys_dedup_witness :
    List.Chain' (fun a b => a ≠ b)
      (sysCodes (run ⟨initLogger, 0⟩
        [Step.sysCallSetsError 5, Step.log fail, Step.log fail]).2) ∧
    Event.sysLine 5 ∈ (LogA ⟨initLogger, 5⟩ fail).2 :=
  ⟨(c3_sys_dedup ⟨initLogger, 0⟩
      [Step.sysCallSetsError 5, Step.log fail, Step.log fail] 0).1,
   (c3_sys_dedup ⟨initLogger, 5⟩ [] fail).2 (by decide) (by decide) (by decide)
     (by decide) (by decide)⟩

/-! ### Schedules of two concurrent calls (for C6) -/

/-- Every step of a merged schedule originates in one of the two merged step
lists. -/
theorem isMergeOf_mem (sched : List (Bool × MicroAction)) :
    ∀ xs ys, isMergeOf sched xs ys = true → ∀ p ∈ sched, p.2 ∈ xs ∨ p.2 ∈ ys := by
  induction sched with
  | nil => simp
  | cons q s ih =>
    obtain ⟨t, a⟩ := q
    intro xs ys h p hp
    cases t with
    | false =>
      cases xs with
      | nil => simp [isMergeOf] at h
      | cons x xs2 =>
        simp only [isMergeOf, Bool.and_eq_true, decide_eq_true_eq] at h
        obtain ⟨rfl, h2⟩ := h
        rcases List.mem_cons.1 hp with rfl | hp2
        · exact Or.inl (List.mem_cons_self _ _)
        · rcases ih xs2 ys h2 p hp2 with hm | hm
          · exact Or.inl (List.mem_cons_of_mem _ hm)
          · exact Or.inr hm
    | true =>
      cases ys with
      | nil => simp [isMergeOf] at h
      | cons y ys2 =>
        simp only [isMergeOf, Bool.and_eq_true, decide_eq_true_eq] at h
        obtain ⟨rfl, h2⟩ := h
        rcases List.mem_cons.1 hp with rfl | hp2
        · exact Or.inr (List.mem_cons_self _ _)
        · rcases ih xs ys2 h2 p hp2 with hm | hm
          · exact Or.inl hm
          · exact Or.inr (List.mem_cons_of_mem _ hm)

/-- A schedule containing no lock-acquire step trivially respects the lock
discipline: the critical section is never entered. -/
theorem respectsLock_of_no_acquire (sched : List (Bool × MicroAction)) :
    (∀ p ∈ sched, p.2 ≠ MicroAction.lockAcquire) → respectsLock sched = true := by
  rw [respectsLock]
  induction sched with
  | nil =>
    intro _
    rfl
  | cons q s ih =>
    obtain ⟨t, a⟩ := q
    intro h
    have ha := h (t, a) (List.mem_cons_self _ _)
    have hs : ∀ p ∈ s, p.2 ≠ MicroAction.lockAcquire :=
      fun p hp => h p (List.mem_cons_of_mem _ hp)
    cases a with
    | lockAcquire => exact absurd rfl ha
    | lockRelease => exact ih hs
    | emit e => exact ih hs

/-- `LogA` takes no lock: its micro-steps are console events only. -/
theorem LogMicroSteps_no_lock (w : World) (lvl : Int) :
    ∀ a ∈ LogMicroSteps w lvl,
      a ≠ MicroAction.lockAcquire ∧ a ≠ MicroAction.lockRelease := by
  intro a ha
  simp only [LogMicroSteps, List.mem_map] at ha
  obtain ⟨e, _, rfl⟩ := ha
  exact ⟨by simp, by simp⟩

/-- Claim C6 counterexample: a concrete alternating schedule of two `LogA`
calls from the initial state is a valid interleaving of the two calls'
micro-steps, respects the (nonexistent) lock discipline of the source, and
is not serial — the two calls' steps interleave, so a `LogA` call is not
atomic with respect to a concurrent `LogA` call. -/
theorem c6_counterexample :
    isMergeOf schedInterleaved (LogMicroSteps ⟨initLogger, 0⟩ trace)
      (LogMicroSteps ⟨initLogger, 0⟩ trace) = true ∧
    respectsLock schedInterleaved = true ∧
    isSerial schedInterleaved (LogMicroSteps ⟨initLogger, 0⟩ trace)
      (LogMicroSteps ⟨initLogger, 0⟩ trace) = false := by decide

/-- Claim C6 amended: this variant's `LogA` executes no critical section at
all — no step of any call acquires or releases a lock, so the lock
discipline constrains no interleaving: every merge of two concurrent calls'
micro-steps is an admissible schedule (including non-serial ones, as the
counterexample exhibits), and `Log` calls are not atomic with respect to
each other or to `SetLogLevel`. -/
theorem c6_no_critical_section (w1 : World) (l1 : Int) (w2 : World) (l2 : Int) :
    MicroAction.lockAcquire ∉ LogMicroSteps w1 l1 ∧
    MicroAction.lockRelease ∉ LogMicroSteps w1 l1 ∧
    ∀ sched, isMergeOf sched (LogMicroSteps w1 l1) (LogMicroSteps w2 l2) = true →
      respectsLock sched = true := by
  refine ⟨?_, ?_, ?_⟩
  · intro h
    exact (LogMicroSteps_no_lock w1 l1 _ h).1 rfl
  · intro h
    exact (LogMicroSteps_no_lock w1 l1 _ h).2 rfl
  · intro sched hm
    apply respectsLock_of_no_acquire
    intro p hp
    rcases isMergeOf_mem sched _ _ hm p hp with h | h
    · exact (LogMicroSteps_no_lock w1 l1 _ h).1
    · exact (LogMicroSteps_no_lock w2 l2 _ h).1

/-- Witness for C6 amended: the interleaved schedule of the counterexample is
admissible. -/
theorem c6_no_critical_section_witness : respectsLock schedInterleaved = true :=
  (c6_no_critical_section ⟨initLogger, 0⟩ trace ⟨initLogger, 0⟩ trace).2.2
    schedInterleaved (by decide)

end BeanLog
